import Mathlib

/-!
Verification of the WHY.AI constraint-aware recommendation core
(`backend/scoring.py`, `backend/discovery.py`, `backend/explainer.py`).

Shallow embedding conventions:
* Python numbers are modelled as exact rationals (`ℚ`); `round(x, 4)` and
  `round(x)` are modelled by round-half-to-even on `ℚ` (the Python rounding rule).
* Python dicts for items are modelled as a record carrying every field the
  pipeline ever writes; fields that a dict only acquires later in the pipeline
  (`score_breakdown`, `is_discovery`, `discovery_reason`, the explanation
  texts) are `Option`-valued, `none` meaning "key absent".
* `random.sample` performs I/O on the global random source; it is modelled as
  an explicit `sample` function argument, constrained (where needed) by
  `SampleSpec`, which states exactly the guarantee of `random.sample pool k`:
  the draw is `k` distinct positions of the pool, i.e. a permutation of a
  sublist (`Subperm`) of length `k`.
* The OpenAI call in `explainer.py` is network I/O; `generate_explanations`
  takes the result of `generate_explanations_llm` as an explicit argument,
  the empty list being what the code returns on failure or missing API key.
* Code paths that can raise Python exceptions (`ZeroDivisionError` from `/`,
  `ValueError` from `random.sample`) have a second, `Option`-valued embedding
  (`..._checked`) returning `none` exactly where the exception would be raised.
-/

/-- One recommendable entity, mirroring the item dicts of the backend. -/
structure WeightProfile where
  budget_weight : ℚ
  time_weight : ℚ
  alignment_weight : ℚ
deriving DecidableEq, Repr

/-- The `score_breakdown` dict attached by `compute_soft_scores`. -/
structure Breakdown where
  budget_efficiency : ℚ
  time_efficiency : ℚ
  alignment : ℚ
  weights_used : WeightProfile
deriving DecidableEq, Repr

/-- An item dict.  The first nine fields come verbatim from the catalog;
`score` and the `Option` fields are written by later pipeline stages
(`none` = key not present yet). -/
structure Item where
  id : String
  name : String
  category : String
  price : ℚ
  time_minutes : ℚ
  comfort_score : ℚ
  exploration_score : ℚ
  tags : List String
  description : String
  score : ℚ
  score_breakdown : Option Breakdown
  is_discovery : Option Bool
  discovery_reason : Option String
  why_recommended : Option String
  tradeoffs : Option String
  why_others_lower : Option String
deriving DecidableEq, Repr

/-- Python `round` to the nearest integer: round-half-to-even. -/
def pyRound (q : ℚ) : ℤ :=
  let f := q.floor
  if q - f < 1/2 then f
  else if 1/2 < q - f then f + 1
  else if f % 2 = 0 then f else f + 1

/-- Python `round(x, 4)`. -/
def round4 (q : ℚ) : ℚ := (pyRound (q * 10000) : ℚ) / 10000

/-- Function `apply_hard_constraints` from `scoring.py`: drop every item whose price
exceeds the budget or whose time exceeds the available time. -/
def apply_hard_constraints (items : List Item) (budget time : ℚ) : List Item :=
  match items with
  | [] => []
  | item :: rest =>
    if item.price > budget then apply_hard_constraints rest budget time
    else if item.time_minutes > time then apply_hard_constraints rest budget time
    else item :: apply_hard_constraints rest budget time

/-- The `student` entry of `PRESET_WEIGHTS`. -/
def studentWeights : WeightProfile := ⟨50/100, 30/100, 20/100⟩

/-- The `saver` entry of `PRESET_WEIGHTS`. -/
def saverWeights : WeightProfile := ⟨60/100, 15/100, 25/100⟩

/-- The `explorer` entry of `PRESET_WEIGHTS`. -/
def explorerWeights : WeightProfile := ⟨15/100, 15/100, 70/100⟩

/-- The `default` entry of `PRESET_WEIGHTS`. -/
def defaultWeights : WeightProfile := ⟨35/100, 30/100, 35/100⟩

/-- The `PRESET_WEIGHTS` dict of `scoring.py`, as an association list. -/
def PRESET_WEIGHTS : List (String × WeightProfile) :=
  [("student", studentWeights), ("saver", saverWeights),
   ("explorer", explorerWeights), ("default", defaultWeights)]

/-- Lookup `PRESET_WEIGHTS.get(preset, PRESET_WEIGHTS["default"])`: dict lookup with
fallback; a `None` preset is not a key of the dict and also falls back. -/
def weightsFor (preset : Option String) : WeightProfile :=
  match preset with
  | none => defaultWeights
  | some s => (((PRESET_WEIGHTS.find? (fun p => p.1 = s)).map Prod.snd).getD defaultWeights)

/-- Body of the scoring loop of `compute_soft_scores` for a single item. -/
def scoreOne (budget time slider : ℚ) (w : WeightProfile) (item : Item) : Item :=
  let budget_score := if budget > 0 then 1 - item.price / budget else 1
  let time_score := if time > 0 then 1 - item.time_minutes / time else 1
  let alignment_score :=
    (1 - slider) * item.comfort_score + slider * item.exploration_score
  let composite := round4 (w.budget_weight * budget_score
      + w.time_weight * time_score + w.alignment_weight * alignment_score)
  { item with
      score := composite,
      score_breakdown := some
        ⟨round4 budget_score, round4 time_score, round4 alignment_score, w⟩ }

/-- Function `compute_soft_scores` from `scoring.py`: score every item, then sort the
scored list descending by `score` with the Python stable sort
(`list.sort(key=score, reverse=True)` = stable sort under `b.score ≤ a.score`). -/
def compute_soft_scores (items : List Item) (budget time slider : ℚ)
    (preset : Option String) : List Item :=
  (items.map (scoreOne budget time slider (weightsFor preset))).mergeSort
    (fun a b => decide (b.score ≤ a.score))

/-- Return value of `score_items`. -/
structure ScoreResult where
  ranked : List Item
  filtered_out_count : ℕ
  total_count : ℕ
deriving DecidableEq, Repr

/-- Function `score_items` from `scoring.py`: hard filter, then soft score. -/
def score_items (items : List Item) (budget time slider : ℚ)
    (preset : Option String) : ScoreResult :=
  let total := items.length
  let passed := apply_hard_constraints items budget time
  let filtered_out := total - passed.length
  ⟨compute_soft_scores passed budget time slider preset, filtered_out, total⟩

/-- Claim C1: the hard-constraint filter returns exactly the items with
`price ≤ budget` and `time_minutes ≤ time` — stated as equality with
`List.filter`, which also gives the membership characterisation and that the
output is an order-preserving subsequence of the input with no field
modified.  Determinism is intrinsic: the embedding is a pure function. -/
theorem C1_hard_filter_correct (items : List Item) (budget time : ℚ) :
    apply_hard_constraints items budget time
      = items.filter (fun i => decide (i.price ≤ budget) && decide (i.time_minutes ≤ time))
    ∧ (∀ x : Item, x ∈ apply_hard_constraints items budget time
        ↔ x ∈ items ∧ x.price ≤ budget ∧ x.time_minutes ≤ time)
    ∧ (apply_hard_constraints items budget time).Sublist items := by
  have hfilter : apply_hard_constraints items budget time
      = items.filter (fun i => decide (i.price ≤ budget) && decide (i.time_minutes ≤ time)) := by
    induction items with
    | nil => rfl
    | cons a rest ih =>
      by_cases h1 : a.price > budget
      · have h1' : ¬ a.price ≤ budget := not_le.mpr h1
        simp [apply_hard_constraints, ih, List.filter_cons, h1, h1']
      · have h1' : a.price ≤ budget := not_lt.mp h1
        by_cases h2 : a.time_minutes > time
        · have h2' : ¬ a.time_minutes ≤ time := not_le.mpr h2
          simp [apply_hard_constraints, ih, List.filter_cons, h1, h1', h2, h2']
        · have h2' : a.time_minutes ≤ time := not_lt.mp h2
          simp [apply_hard_constraints, ih, List.filter_cons, h1, h1', h2, h2']
  refine ⟨hfilter, ?_, ?_⟩
  · intro x
    rw [hfilter]
    simp [List.mem_filter, and_assoc]
  · rw [hfilter]
    exact List.filter_sublist items

/-- Claim C2: each scored item gets the documented sub-scores and the rounded
weighted composite, with the weight profile resolved from the preset name and
falling back to `default` when the preset is absent or unrecognized; the
breakdown records the rounded sub-scores and the profile actually applied.
The output is a permutation of the input mapped through that enrichment. -/
theorem C2_scorer_formulas (items : List Item) (budget time slider : ℚ)
    (preset : Option String) :
    (compute_soft_scores items budget time slider preset).Perm
      (items.map (fun i =>
        { i with
            score := round4
              ((weightsFor preset).budget_weight
                  * (if budget > 0 then 1 - i.price / budget else 1)
                + (weightsFor preset).time_weight
                  * (if time > 0 then 1 - i.time_minutes / time else 1)
                + (weightsFor preset).alignment_weight
                  * ((1 - slider) * i.comfort_score + slider * i.exploration_score)),
            score_breakdown := some
              ⟨round4 (if budget > 0 then 1 - i.price / budget else 1),
               round4 (if time > 0 then 1 - i.time_minutes / time else 1),
               round4 ((1 - slider) * i.comfort_score + slider * i.exploration_score),
               weightsFor preset⟩ }))
    ∧ weightsFor preset
        = (if preset = some "student" then studentWeights
           else if preset = some "saver" then saverWeights
           else if preset = some "explorer" then explorerWeights
           else defaultWeights) := by
  constructor
  · have he : items.map (fun i : Item =>
        { i with
            score := round4
              ((weightsFor preset).budget_weight
                  * (if budget > 0 then 1 - i.price / budget else 1)
                + (weightsFor preset).time_weight
                  * (if time > 0 then 1 - i.time_minutes / time else 1)
                + (weightsFor preset).alignment_weight
                  * ((1 - slider) * i.comfort_score + slider * i.exploration_score)),
            score_breakdown := some
              ⟨round4 (if budget > 0 then 1 - i.price / budget else 1),
               round4 (if time > 0 then 1 - i.time_minutes / time else 1),
               round4 ((1 - slider) * i.comfort_score + slider * i.exploration_score),
               weightsFor preset⟩ })
        = items.map (scoreOne budget time slider (weightsFor preset)) := by
      apply List.map_congr_left
      intro i _
      rfl
    rw [he]
    exact List.mergeSort_perm _ _
  · rcases preset with _ | s
    · rfl
    · by_cases h1 : s = "student"
      · subst h1; rfl
      · by_cases h2 : s = "saver"
        · subst h2; rfl
        · by_cases h3 : s = "explorer"
          · subst h3; rfl
          · by_cases h4 : s = "default"
            · subst h4; rfl
            · have h1' : ¬ ("student" = s) := fun h => h1 h.symm
              have h2' : ¬ ("saver" = s) := fun h => h2 h.symm
              have h3' : ¬ ("explorer" = s) := fun h => h3 h.symm
              have h4' : ¬ ("default" = s) := fun h => h4 h.symm
              simp [weightsFor, PRESET_WEIGHTS, h1, h2, h3, h4, h1', h2', h3', h4']

/-- Claim C3: the scorer output is sorted descending by the rounded
composite score (adjacent pairs are non-increasing), and the underlying sort
is stable: two scored items with equal scores that occur in a given relative
order in the scored (pre-sort) sequence occur in the same relative order in
the output. -/
theorem C3_sorted_stable (items : List Item) (budget time slider : ℚ)
    (preset : Option String) :
    (∀ (i : ℕ) (h : i + 1 < (compute_soft_scores items budget time slider preset).length),
      ((compute_soft_scores items budget time slider preset).get ⟨i + 1, h⟩).score
        ≤ ((compute_soft_scores items budget time slider preset).get
            ⟨i, Nat.lt_of_succ_lt h⟩).score)
    ∧ (∀ x y : Item, x.score = y.score →
        [x, y].Sublist (items.map (scoreOne budget time slider (weightsFor preset))) →
        [x, y].Sublist (compute_soft_scores items budget time slider preset)) := by
  have htrans : ∀ a b c : Item,
      (fun a b : Item => decide (b.score ≤ a.score)) a b →
      (fun a b : Item => decide (b.score ≤ a.score)) b c →
      (fun a b : Item => decide (b.score ≤ a.score)) a c := by
    intro a b c hab hbc
    simp only [decide_eq_true_eq] at *
    exact le_trans hbc hab
  have htotal : ∀ a b : Item,
      ((fun a b : Item => decide (b.score ≤ a.score)) a b
        || (fun a b : Item => decide (b.score ≤ a.score)) b a) := by
    intro a b
    simp only [Bool.or_eq_true, decide_eq_true_eq]
    exact le_total b.score a.score
  constructor
  · intro i h
    have hp := List.sorted_mergeSort htrans htotal
      (items.map (scoreOne budget time slider (weightsFor preset)))
    rw [List.pairwise_iff_getElem] at hp
    have h' : i < (compute_soft_scores items budget time slider preset).length :=
      Nat.lt_of_succ_lt h
    have := hp i (i + 1) (by exact h') (by exact h) (Nat.lt_succ_self i)
    simp only [decide_eq_true_eq] at this
    simpa [List.get_eq_getElem] using this
  · intro x y hxy hsub
    exact List.pair_sublist_mergeSort htrans htotal
      (by simp only [decide_eq_true_eq]; exact le_of_eq hxy.symm) hsub

/-- A convenience constructor for concrete catalog items (pipeline fields
initialised to "key absent"), used by the concrete instantiations below. -/
def mkItem (idv : String) (price tmin comfort explore : ℚ) : Item :=
  ⟨idv, idv, "misc", price, tmin, comfort, explore, [], "", 0,
    none, none, none, none, none, none⟩

/-- Witness for C3 at a concrete input: two items with equal composite
scores, occurring in catalog order in the scored sequence, stay in that
order in the scorer output. -/
theorem C3_sorted_stable_witness :
    (scoreOne 100 100 (1/2) (weightsFor none) (mkItem "a" 10 10 (1/2) (1/2))).score
      = (scoreOne 100 100 (1/2) (weightsFor none) (mkItem "b" 10 10 (1/2) (1/2))).score
    ∧ [scoreOne 100 100 (1/2) (weightsFor none) (mkItem "a" 10 10 (1/2) (1/2)),
       scoreOne 100 100 (1/2) (weightsFor none) (mkItem "b" 10 10 (1/2) (1/2))].Sublist
        (compute_soft_scores [mkItem "a" 10 10 (1/2) (1/2), mkItem "b" 10 10 (1/2) (1/2)]
          100 100 (1/2) none) :=
  ⟨rfl,
    (C3_sorted_stable [mkItem "a" 10 10 (1/2) (1/2), mkItem "b" 10 10 (1/2) (1/2)]
        100 100 (1/2) none).2 _ _ rfl (List.Sublist.refl _)⟩

/-- The fixed `discovery_reason` text of `discovery.py`. -/
def discoveryReason : String :=
  "This is shown to broaden your discovery. It satisfies your constraints but explores a different direction."

/-- The in-place mutation `item["is_discovery"] = False` on a head item. -/
def markNotDiscovery (i : Item) : Item := { i with is_discovery := some false }

/-- The in-place mutations on a sampled discovery item:
`is_discovery = True` plus the fixed reason text. -/
def markDiscovery (i : Item) : Item :=
  { i with is_discovery := some true, discovery_reason := some discoveryReason }

/-- Erase the two discovery flags; two items agree on every other field iff
their images under `exceptFlags` are equal. -/
def exceptFlags (i : Item) : Item :=
  { i with is_discovery := none, discovery_reason := none }

/-- The guarantee of `random.sample(pool, k)` for `k ≤ len(pool)`: the draw
has length `k` and consists of distinct positions of the pool in some order,
i.e. it is a permutation of a sublist of the pool. -/
def SampleSpec (sample : List Item → ℕ → List Item) : Prop :=
  ∀ (pool : List Item) (k : ℕ), k ≤ pool.length →
    (sample pool k).length = k ∧ (sample pool k).Subperm pool

/-- The insertion loop of `inject_discovery`: the `k`-th discovery pick
(0-based, in sampling order) is inserted at position
`min (2 + k * 2) results.length` of the current result list. -/
def insertPicks (results picks : List Item) (k : ℕ) : List Item :=
  match picks with
  | [] => results
  | p :: rest =>
    insertPicks (List.insertIdx (min (2 + k * 2) results.length) p results) rest (k + 1)

/-- Clamp `num_discovery` of `inject_discovery`:
`min(max(1, round(top_n * discovery_rate)), len(pool))`. -/
def numDiscovery (top_n : ℕ) (rate : ℚ) (poolLen : ℕ) : ℤ :=
  min (max 1 (pyRound (top_n * rate))) (poolLen : ℤ)

/-- Function `inject_discovery` from `discovery.py`.  Here `sample` stands for
`random.sample` (see `SampleSpec`); the `all_passed` argument is accepted and,
as in the source, never used.  Marking `is_discovery` on the head items does
not change ids, so `top_ids` is computed from the unmarked head items. -/
def inject_discovery (sample : List Item → ℕ → List Item)
    (ranked all_passed : List Item) (top_n : ℕ) (discovery_rate : ℚ) : List Item :=
  let top_items := (ranked.take top_n).map markNotDiscovery
  let top_ids : List String := (ranked.take top_n).map (fun i => i.id)
  let discovery_pool := ranked.filter (fun i => !(decide (i.id ∈ top_ids)))
  if discovery_pool.isEmpty then top_items
  else
    let num_discovery := numDiscovery top_n discovery_rate discovery_pool.length
    let discovery_picks := sample discovery_pool num_discovery.toNat
    insertPicks top_items (discovery_picks.map markDiscovery) 0

/-- Exception-aware variant of `inject_discovery`: `none` exactly where
`random.sample(pool, k)` would raise `ValueError`, i.e. when the requested
size exceeds the pool size (`k < 0` is impossible for `k : ℕ`). -/
def inject_discovery_checked (sample : List Item → ℕ → List Item)
    (ranked all_passed : List Item) (top_n : ℕ) (discovery_rate : ℚ) :
    Option (List Item) :=
  let top_items := (ranked.take top_n).map markNotDiscovery
  let top_ids : List String := (ranked.take top_n).map (fun i => i.id)
  let discovery_pool := ranked.filter (fun i => !(decide (i.id ∈ top_ids)))
  if discovery_pool.isEmpty then some top_items
  else
    let num_discovery := numDiscovery top_n discovery_rate discovery_pool.length
    if num_discovery.toNat ≤ discovery_pool.length then
      let discovery_picks := sample discovery_pool num_discovery.toNat
      some (insertPicks top_items (discovery_picks.map markDiscovery) 0)
    else none

/-- Inserting at a position within bounds is, up to permutation, a cons. -/
theorem insertIdx_perm_cons {α : Type} (a : α) :
    ∀ (l : List α) (n : ℕ), n ≤ l.length → (List.insertIdx n a l).Perm (a :: l) := by
  intro l
  induction l with
  | nil =>
    intro n hn
    have : n = 0 := Nat.le_zero.mp hn
    subst this
    exact List.Perm.refl _
  | cons x xs ih =>
    intro n hn
    cases n with
    | zero => exact List.Perm.refl _
    | succ m =>
      rw [List.insertIdx_succ_cons]
      exact ((ih m (Nat.le_of_succ_le_succ hn)).cons x).trans (List.Perm.swap a x xs)

/-- The insertion loop permutes the head items and the picks into one list:
every pick is inserted at a position clamped to the current length, so nothing
is dropped or duplicated. -/
theorem insertPicks_perm_append :
    ∀ (picks results : List Item) (k : ℕ),
      (insertPicks results picks k).Perm (results ++ picks) := by
  intro picks
  induction picks with
  | nil =>
    intro results k
    simp [insertPicks]
  | cons p rest ih =>
    intro results k
    have h1 := ih (List.insertIdx (min (2 + k * 2) results.length) p results) (k + 1)
    have h2 : (List.insertIdx (min (2 + k * 2) results.length) p results).Perm (p :: results) :=
      insertIdx_perm_cons p results _ (Nat.min_le_right _ _)
    have h3 : ((List.insertIdx (min (2 + k * 2) results.length) p results) ++ rest).Perm
        (p :: (results ++ rest)) := h2.append_right rest
    have h4 : (p :: (results ++ rest)).Perm (results ++ (p :: rest)) := List.perm_middle.symm
    exact (h1.trans h3).trans h4

/-- Relation `Subperm` is preserved by `map`. -/
theorem subperm_map_items {α β : Type} (f : α → β) {l₁ l₂ : List α}
    (h : l₁.Subperm l₂) : (l₁.map f).Subperm (l₂.map f) := by
  rcases h with ⟨w, hp, hs⟩
  exact ⟨w.map f, hp.map f, hs.map f⟩

/-- When ids are pairwise distinct, the candidate-pool filter of
`inject_discovery` (drop everything whose id occurs in the first `n` ids)
is exactly `List.drop n`. -/
theorem filter_not_mem_take_ids :
    ∀ (l : List Item) (n : ℕ), (l.map (fun i => i.id)).Nodup →
      l.filter (fun i => !(decide (i.id ∈ (l.take n).map (fun i => i.id)))) = l.drop n := by
  intro l
  induction l with
  | nil => intro n _; simp
  | cons x xs ih =>
    intro n hn
    cases n with
    | zero =>
      simp only [List.take_zero, List.map_nil, List.not_mem_nil, decide_False,
        Bool.not_false, List.drop_zero]
      exact List.filter_eq_self.mpr (fun a _ => rfl)
    | succ m =>
      simp only [List.map_cons, List.nodup_cons] at hn
      obtain ⟨hx, hxs⟩ := hn
      have hcongr : xs.filter (fun i : Item =>
            !(decide (i.id ∈ ((x :: xs).take (m + 1)).map (fun i => i.id))))
          = xs.filter (fun i : Item =>
            !(decide (i.id ∈ (xs.take m).map (fun i => i.id)))) := by
        apply List.filter_congr
        intro a ha
        have haid : a.id ≠ x.id := by
          intro he
          exact hx (he ▸ List.mem_map_of_mem (fun i => i.id) ha)
        simp [List.take_succ_cons, haid]
      rw [List.filter_cons]
      have hb : (!(decide (x.id ∈ ((x :: xs).take (m + 1)).map (fun i => i.id)))) = false := by
        simp [List.take_succ_cons]
      rw [hb]
      simp only [Bool.false_eq_true, if_false]
      rw [hcongr, ih m hxs]
      rfl

/-- Structural form of `inject_discovery` when ids are distinct and some item
lies beyond the head: the candidate pool is exactly `ranked.drop top_n`, and
the result is the insertion loop applied to the marked head and the marked
sample of the pool. -/
theorem inject_discovery_eq_insertPicks (sample : List Item → ℕ → List Item)
    (ranked all_passed : List Item) (top_n : ℕ) (rate : ℚ)
    (hn : (ranked.map (fun i => i.id)).Nodup) (hlen : top_n < ranked.length) :
    inject_discovery sample ranked all_passed top_n rate
      = insertPicks ((ranked.take top_n).map markNotDiscovery)
          ((sample (ranked.drop top_n)
              (numDiscovery top_n rate (ranked.length - top_n)).toNat).map markDiscovery) 0 := by
  simp only [inject_discovery]
  rw [filter_not_mem_take_ids ranked top_n hn]
  have hne : (ranked.drop top_n).isEmpty = false := by
    rw [List.isEmpty_eq_false]
    intro hnil
    rw [List.drop_eq_nil_iff] at hnil
    omega
  rw [hne]
  simp [List.length_drop]

/-- Structural form of `inject_discovery` when every ranked item lies within
the head: the pool is empty and the result is the marked head, which is the
whole marked list. -/
theorem inject_discovery_eq_of_length_le (sample : List Item → ℕ → List Item)
    (ranked all_passed : List Item) (top_n : ℕ) (rate : ℚ)
    (hlen : ranked.length ≤ top_n) :
    inject_discovery sample ranked all_passed top_n rate = ranked.map markNotDiscovery := by
  simp only [inject_discovery]
  have htake : ranked.take top_n = ranked := List.take_of_length_le hlen
  have hfil : ranked.filter
      (fun i => !(decide (i.id ∈ (ranked.take top_n).map (fun i => i.id)))) = [] := by
    rw [List.filter_eq_nil_iff]
    intro a ha
    simp [htake]
    exact ⟨a, ha, rfl⟩
  rw [hfil]
  simp [htake]

/-- A concrete admissible sampling function (used to instantiate theorems
that hold for every admissible draw): take the first `k` pool items. -/
def sampleTake : List Item → ℕ → List Item := fun pool k => pool.take k

/-- Function `sampleTake` satisfies the `random.sample` contract. -/
theorem sampleTake_spec : SampleSpec sampleTake := by
  intro pool k hk
  constructor
  · rw [sampleTake, List.length_take]
    omega
  · exact (List.take_sublist k pool).subperm

/-- Claim C7: when every ranked item lies within the first `top_n` positions
(the empty input included), the injector returns exactly the marked head — the
whole marked input — unchanged in order and length, and no error is raised
(the checked embedding returns `some`). -/
theorem C7_empty_pool_returns_head (sample : List Item → ℕ → List Item)
    (ranked all_passed : List Item) (top_n : ℕ) (rate : ℚ)
    (hlen : ranked.length ≤ top_n) :
    inject_discovery sample ranked all_passed top_n rate
        = (ranked.take top_n).map markNotDiscovery
    ∧ inject_discovery sample ranked all_passed top_n rate = ranked.map markNotDiscovery
    ∧ (inject_discovery sample ranked all_passed top_n rate).map exceptFlags
        = ranked.map exceptFlags
    ∧ (inject_discovery sample ranked all_passed top_n rate).length = ranked.length
    ∧ inject_discovery_checked sample ranked all_passed top_n rate
        = some (inject_discovery sample ranked all_passed top_n rate) := by
  have htake : ranked.take top_n = ranked := List.take_of_length_le hlen
  have heq := inject_discovery_eq_of_length_le sample ranked all_passed top_n rate hlen
  have hfil : ranked.filter
      (fun i => !(decide (i.id ∈ (ranked.take top_n).map (fun i => i.id)))) = [] := by
    rw [List.filter_eq_nil_iff]
    intro a ha
    simp [htake]
    exact ⟨a, ha, rfl⟩
  refine ⟨?_, heq, ?_, ?_, ?_⟩
  · rw [heq, htake]
  · rw [heq, List.map_map]
    apply List.map_congr_left
    intro i _
    rfl
  · rw [heq, List.length_map]
  · simp only [inject_discovery_checked]
    rw [hfil]
    simp [heq, htake]

/-- Witness for C7 at a concrete input. -/
theorem C7_empty_pool_returns_head_witness :
    ([mkItem "a" 1 1 0 0] : List Item).length ≤ 5
    ∧ inject_discovery sampleTake [mkItem "a" 1 1 0 0] [] 5 (3/20)
        = (([mkItem "a" 1 1 0 0] : List Item).take 5).map markNotDiscovery :=
  ⟨by decide,
    (C7_empty_pool_returns_head sampleTake [mkItem "a" 1 1 0 0] [] 5 (3/20) (by decide)).1⟩

/-- Claim C10: `inject_discovery` never reads its `all_passed` argument, so
its output is independent of it; this holds definitionally. -/
theorem C10_all_passed_independent (sample : List Item → ℕ → List Item)
    (ranked passed₁ passed₂ : List Item) (top_n : ℕ) (rate : ℚ) :
    inject_discovery sample ranked passed₁ top_n rate
      = inject_discovery sample ranked passed₂ top_n rate := rfl

/-- Claim C4: with distinct ids and a non-empty post-head pool
(`pool = ranked.drop top_n`), for every admissible random draw the injector
marks exactly `clamp(round(top_n * rate), 1, len pool)` items as discoveries;
they are distinct pool items (a sub-permutation of the pool, flags ignored);
every discovery item carries the fixed non-empty reason text; every head item
(identified by its id among the first `top_n` ids) is marked
`is_discovery = false`; and every output item is flagged one way or the
other.  The uniformity of the distribution of `random.sample` is a property
of the Python standard library, not of this code; `SampleSpec` quantifies over
every draw that library can produce. -/
theorem C4_discovery_sampling (sample : List Item → ℕ → List Item)
    (ranked all_passed : List Item) (top_n : ℕ) (rate : ℚ)
    (hs : SampleSpec sample) (hn : (ranked.map (fun i => i.id)).Nodup)
    (hlen : top_n < ranked.length) :
    ((inject_discovery sample ranked all_passed top_n rate).filter
        (fun i => decide (i.is_discovery = some true))).length
      = (min (max 1 (pyRound (top_n * rate))) ((ranked.length - top_n : ℕ) : ℤ)).toNat
    ∧ (((inject_discovery sample ranked all_passed top_n rate).filter
        (fun i => decide (i.is_discovery = some true))).map exceptFlags).Subperm
        ((ranked.drop top_n).map exceptFlags)
    ∧ (∀ x ∈ inject_discovery sample ranked all_passed top_n rate,
        x.is_discovery = some true → x.discovery_reason = some discoveryReason)
    ∧ discoveryReason ≠ ""
    ∧ (∀ x ∈ inject_discovery sample ranked all_passed top_n rate,
        x.id ∈ (ranked.take top_n).map (fun i => i.id) → x.is_discovery = some false)
    ∧ (∀ x ∈ inject_discovery sample ranked all_passed top_n rate,
        x.is_discovery = some false ∨ x.is_discovery = some true) := by
  have hk : (numDiscovery top_n rate (ranked.length - top_n)).toNat
      ≤ (ranked.drop top_n).length := by
    rw [List.length_drop]
    exact Int.toNat_le.mpr (min_le_right _ _)
  obtain ⟨hsl, hssub⟩ := hs (ranked.drop top_n)
    (numDiscovery top_n rate (ranked.length - top_n)).toNat hk
  have heq := inject_discovery_eq_insertPicks sample ranked all_passed top_n rate hn hlen
  have hperm : (inject_discovery sample ranked all_passed top_n rate).Perm
      (((ranked.take top_n).map markNotDiscovery)
        ++ ((sample (ranked.drop top_n)
            (numDiscovery top_n rate (ranked.length - top_n)).toNat).map markDiscovery)) := by
    rw [heq]
    exact insertPicks_perm_append _ _ 0
  have hfh : ((ranked.take top_n).map markNotDiscovery).filter
      (fun i => decide (i.is_discovery = some true)) = [] := by
    rw [List.filter_eq_nil_iff]
    intro a ha
    obtain ⟨y, -, rfl⟩ := List.mem_map.mp ha
    simp [markNotDiscovery]
  have hfp : ((sample (ranked.drop top_n)
        (numDiscovery top_n rate (ranked.length - top_n)).toNat).map markDiscovery).filter
      (fun i => decide (i.is_discovery = some true))
      = (sample (ranked.drop top_n)
          (numDiscovery top_n rate (ranked.length - top_n)).toNat).map markDiscovery := by
    rw [List.filter_eq_self]
    intro a ha
    obtain ⟨y, -, rfl⟩ := List.mem_map.mp ha
    simp [markDiscovery]
  have hfilperm : ((inject_discovery sample ranked all_passed top_n rate).filter
        (fun i => decide (i.is_discovery = some true))).Perm
      ((sample (ranked.drop top_n)
          (numDiscovery top_n rate (ranked.length - top_n)).toNat).map markDiscovery) := by
    have := hperm.filter (fun i => decide (i.is_discovery = some true))
    rwa [List.filter_append, hfh, hfp, List.nil_append] at this
  have hsplit : (ranked.take top_n).map (fun i => i.id)
      ++ (ranked.drop top_n).map (fun i => i.id) = ranked.map (fun i => i.id) := by
    rw [← List.map_append, List.take_append_drop]
  have hdisj : ∀ a, a ∈ (ranked.take top_n).map (fun i => i.id) →
      a ∈ (ranked.drop top_n).map (fun i => i.id) → False := by
    have hnod2 : ((ranked.take top_n).map (fun i => i.id)
        ++ (ranked.drop top_n).map (fun i => i.id)).Nodup := by
      rw [hsplit]; exact hn
    exact fun a h1 h2 => (List.nodup_append.mp hnod2).2.2 h1 h2
  refine ⟨?_, ?_, ?_, ?_, ?_, ?_⟩
  · rw [hfilperm.length_eq, List.length_map, hsl]
    rfl
  · have h1 := hfilperm.map exceptFlags
    have h2 : ((sample (ranked.drop top_n)
          (numDiscovery top_n rate (ranked.length - top_n)).toNat).map markDiscovery).map
          exceptFlags
        = (sample (ranked.drop top_n)
            (numDiscovery top_n rate (ranked.length - top_n)).toNat).map exceptFlags := by
      rw [List.map_map]
      apply List.map_congr_left
      intro i _
      rfl
    have h3 := subperm_map_items exceptFlags hssub
    have h3' : (((sample (ranked.drop top_n)
          (numDiscovery top_n rate (ranked.length - top_n)).toNat).map markDiscovery).map
          exceptFlags).Subperm ((ranked.drop top_n).map exceptFlags) := by
      rw [h2]; exact h3
    exact h1.subperm.trans h3'
  · intro x hx htrue
    rcases List.mem_append.mp (hperm.mem_iff.mp hx) with hmem | hmem
    · obtain ⟨y, -, rfl⟩ := List.mem_map.mp hmem
      simp [markNotDiscovery] at htrue
    · obtain ⟨y, -, rfl⟩ := List.mem_map.mp hmem
      simp [markDiscovery]
  · decide
  · intro x hx hid
    rcases List.mem_append.mp (hperm.mem_iff.mp hx) with hmem | hmem
    · obtain ⟨y, -, rfl⟩ := List.mem_map.mp hmem
      simp [markNotDiscovery]
    · obtain ⟨y, hy, rfl⟩ := List.mem_map.mp hmem
      have hyid : (markDiscovery y).id = y.id := rfl
      have hydrop : y ∈ ranked.drop top_n := hssub.subset hy
      have : y.id ∈ (ranked.drop top_n).map (fun i => i.id) :=
        List.mem_map_of_mem _ hydrop
      exact absurd (hdisj y.id (hyid ▸ hid) this) (fun h => h)
  · intro x hx
    rcases List.mem_append.mp (hperm.mem_iff.mp hx) with hmem | hmem
    · obtain ⟨y, -, rfl⟩ := List.mem_map.mp hmem
      exact Or.inl rfl
    · obtain ⟨y, -, rfl⟩ := List.mem_map.mp hmem
      exact Or.inr rfl

/-- Witness for C4 at a concrete input: three distinct items, head size 2. -/
theorem C4_discovery_sampling_witness :
    (([mkItem "a" 1 1 0 0, mkItem "b" 1 1 0 0, mkItem "c" 1 1 0 0] : List Item).map
        (fun i => i.id)).Nodup
    ∧ (2 : ℕ) < ([mkItem "a" 1 1 0 0, mkItem "b" 1 1 0 0, mkItem "c" 1 1 0 0] : List Item).length
    ∧ (∀ x ∈ inject_discovery sampleTake
          [mkItem "a" 1 1 0 0, mkItem "b" 1 1 0 0, mkItem "c" 1 1 0 0] [] 2 (3/20),
        x.is_discovery = some true → x.discovery_reason = some discoveryReason) :=
  ⟨by decide, by decide,
    (C4_discovery_sampling sampleTake
        [mkItem "a" 1 1 0 0, mkItem "b" 1 1 0 0, mkItem "c" 1 1 0 0] [] 2 (3/20)
        sampleTake_spec (by decide) (by decide)).2.2.1⟩

/-- Claim C5: with distinct ids and a non-empty post-head pool, the injector
output is the insertion loop (`k`-th pick inserted at position
`min (2 + 2k, current length)`, see `insertPicks`) applied to the marked head
and the marked sample; consequently the output is a permutation of head items
plus sampled items and has length `top_n + num_discovery`. -/
theorem C5_interleave_build (sample : List Item → ℕ → List Item)
    (ranked all_passed : List Item) (top_n : ℕ) (rate : ℚ)
    (hs : SampleSpec sample) (hn : (ranked.map (fun i => i.id)).Nodup)
    (hlen : top_n < ranked.length) :
    inject_discovery sample ranked all_passed top_n rate
      = insertPicks ((ranked.take top_n).map markNotDiscovery)
          ((sample (ranked.drop top_n)
              (numDiscovery top_n rate (ranked.length - top_n)).toNat).map markDiscovery) 0
    ∧ (inject_discovery sample ranked all_passed top_n rate).Perm
        (((ranked.take top_n).map markNotDiscovery)
          ++ ((sample (ranked.drop top_n)
              (numDiscovery top_n rate (ranked.length - top_n)).toNat).map markDiscovery))
    ∧ (inject_discovery sample ranked all_passed top_n rate).length
        = top_n + (numDiscovery top_n rate (ranked.length - top_n)).toNat := by
  have hk : (numDiscovery top_n rate (ranked.length - top_n)).toNat
      ≤ (ranked.drop top_n).length := by
    rw [List.length_drop]
    exact Int.toNat_le.mpr (min_le_right _ _)
  obtain ⟨hsl, -⟩ := hs (ranked.drop top_n)
    (numDiscovery top_n rate (ranked.length - top_n)).toNat hk
  have heq := inject_discovery_eq_insertPicks sample ranked all_passed top_n rate hn hlen
  have hperm : (inject_discovery sample ranked all_passed top_n rate).Perm
      (((ranked.take top_n).map markNotDiscovery)
        ++ ((sample (ranked.drop top_n)
            (numDiscovery top_n rate (ranked.length - top_n)).toNat).map markDiscovery)) := by
    rw [heq]
    exact insertPicks_perm_append _ _ 0
  refine ⟨heq, hperm, ?_⟩
  rw [hperm.length_eq, List.length_append, List.length_map, List.length_map, List.length_take,
    hsl, Nat.min_eq_left (Nat.le_of_lt hlen)]

/-- Witness for C5 at a concrete input. -/
theorem C5_interleave_build_witness :
    (([mkItem "d" 1 1 0 0, mkItem "e" 1 1 0 0, mkItem "f" 1 1 0 0] : List Item).map
        (fun i => i.id)).Nodup
    ∧ (2 : ℕ) < ([mkItem "d" 1 1 0 0, mkItem "e" 1 1 0 0, mkItem "f" 1 1 0 0] : List Item).length
    ∧ (inject_discovery sampleTake
          [mkItem "d" 1 1 0 0, mkItem "e" 1 1 0 0, mkItem "f" 1 1 0 0] [] 2 (3/20)).length
        = 2 + (numDiscovery 2 (3/20)
            (([mkItem "d" 1 1 0 0, mkItem "e" 1 1 0 0, mkItem "f" 1 1 0 0] : List Item).length
              - 2)).toNat :=
  ⟨by decide, by decide,
    (C5_interleave_build sampleTake
        [mkItem "d" 1 1 0 0, mkItem "e" 1 1 0 0, mkItem "f" 1 1 0 0] [] 2 (3/20)
        sampleTake_spec (by decide) (by decide)).2.2⟩

/-- Claim C6: with pairwise-distinct input ids, for any admissible random
draw the injector output has no repeated id, and every output item agrees
with some input item on every field other than `is_discovery` and
`discovery_reason`. -/
theorem C6_ids_nodup_fields_preserved (sample : List Item → ℕ → List Item)
    (ranked all_passed : List Item) (top_n : ℕ) (rate : ℚ)
    (hs : SampleSpec sample) (hn : (ranked.map (fun i => i.id)).Nodup) :
    ((inject_discovery sample ranked all_passed top_n rate).map (fun i => i.id)).Nodup
    ∧ ∀ x ∈ inject_discovery sample ranked all_passed top_n rate,
        ∃ y ∈ ranked, exceptFlags x = exceptFlags y := by
  by_cases hl : ranked.length ≤ top_n
  · rw [inject_discovery_eq_of_length_le sample ranked all_passed top_n rate hl]
    constructor
    · have : (ranked.map markNotDiscovery).map (fun i => i.id)
          = ranked.map (fun i => i.id) := by
        rw [List.map_map]
        apply List.map_congr_left
        intro i _
        rfl
      rw [this]
      exact hn
    · intro x hx
      obtain ⟨y, hy, rfl⟩ := List.mem_map.mp hx
      exact ⟨y, hy, rfl⟩
  · have hlen : top_n < ranked.length := Nat.lt_of_not_le hl
    have hk : (numDiscovery top_n rate (ranked.length - top_n)).toNat
        ≤ (ranked.drop top_n).length := by
      rw [List.length_drop]
      exact Int.toNat_le.mpr (min_le_right _ _)
    obtain ⟨-, hssub⟩ := hs (ranked.drop top_n)
      (numDiscovery top_n rate (ranked.length - top_n)).toNat hk
    have heq := inject_discovery_eq_insertPicks sample ranked all_passed top_n rate hn hlen
    have hperm : (inject_discovery sample ranked all_passed top_n rate).Perm
        (((ranked.take top_n).map markNotDiscovery)
          ++ ((sample (ranked.drop top_n)
              (numDiscovery top_n rate (ranked.length - top_n)).toNat).map markDiscovery)) := by
      rw [heq]
      exact insertPicks_perm_append _ _ 0
    have hhead_ids : ((ranked.take top_n).map markNotDiscovery).map (fun i => i.id)
        = (ranked.take top_n).map (fun i => i.id) := by
      rw [List.map_map]
      apply List.map_congr_left
      intro i _
      rfl
    have hpicks_ids : ((sample (ranked.drop top_n)
          (numDiscovery top_n rate (ranked.length - top_n)).toNat).map markDiscovery).map
          (fun i => i.id)
        = (sample (ranked.drop top_n)
            (numDiscovery top_n rate (ranked.length - top_n)).toNat).map (fun i => i.id) := by
      rw [List.map_map]
      apply List.map_congr_left
      intro i _
      rfl
    have htake_nodup : ((ranked.take top_n).map (fun i => i.id)).Nodup := by
      rw [List.map_take]
      exact hn.sublist (List.take_sublist _ _)
    have hdrop_nodup : ((ranked.drop top_n).map (fun i => i.id)).Nodup := by
      rw [List.map_drop]
      exact hn.sublist (List.drop_sublist _ _)
    have hid_sub := subperm_map_items (fun i => i.id) hssub
    have hsamp_nodup : ((sample (ranked.drop top_n)
        (numDiscovery top_n rate (ranked.length - top_n)).toNat).map (fun i => i.id)).Nodup := by
      obtain ⟨w, hpw, hsw⟩ := hid_sub
      exact hpw.nodup (hdrop_nodup.sublist hsw)
    have hsplit : (ranked.take top_n).map (fun i => i.id)
        ++ (ranked.drop top_n).map (fun i => i.id) = ranked.map (fun i => i.id) := by
      rw [← List.map_append, List.take_append_drop]
    have hdisj : ∀ a, a ∈ (ranked.take top_n).map (fun i => i.id) →
        a ∈ (ranked.drop top_n).map (fun i => i.id) → False := by
      have hnod2 : ((ranked.take top_n).map (fun i => i.id)
          ++ (ranked.drop top_n).map (fun i => i.id)).Nodup := by
        rw [hsplit]; exact hn
      exact fun a h1 h2 => (List.nodup_append.mp hnod2).2.2 h1 h2
    constructor
    · rw [(hperm.map (fun i => i.id)).nodup_iff, List.map_append, hhead_ids, hpicks_ids]
      rw [List.nodup_append]
      refine ⟨htake_nodup, hsamp_nodup, ?_⟩
      intro a ha hb
      exact hdisj a ha (hid_sub.subset hb)
    · intro x hx
      rcases List.mem_append.mp (hperm.mem_iff.mp hx) with hmem | hmem
      · obtain ⟨y, hy, rfl⟩ := List.mem_map.mp hmem
        exact ⟨y, List.take_subset _ _ hy, rfl⟩
      · obtain ⟨y, hy, rfl⟩ := List.mem_map.mp hmem
        exact ⟨y, List.drop_subset _ _ (hssub.subset hy), rfl⟩

/-- Witness for C6 at a concrete input. -/
theorem C6_ids_nodup_fields_preserved_witness :
    (([mkItem "g" 1 1 0 0, mkItem "h" 1 1 0 0, mkItem "i" 1 1 0 0] : List Item).map
        (fun i => i.id)).Nodup
    ∧ ((inject_discovery sampleTake
          [mkItem "g" 1 1 0 0, mkItem "h" 1 1 0 0, mkItem "i" 1 1 0 0] [] 2 (3/20)).map
        (fun i => i.id)).Nodup :=
  ⟨by decide,
    (C6_ids_nodup_fields_preserved sampleTake
        [mkItem "g" 1 1 0 0, mkItem "h" 1 1 0 0, mkItem "i" 1 1 0 0] [] 2 (3/20)
        sampleTake_spec (by decide)).1⟩

/-- Python division: `ZeroDivisionError` (i.e. `none`) iff the denominator is
zero. -/
def pyDiv (a b : ℚ) : Option ℚ := if b = 0 then none else some (a / b)

/-- Exception-aware variant of `scoreOne`: every `/` goes through `pyDiv`. -/
def scoreOneChecked (budget time slider : ℚ) (w : WeightProfile) (item : Item) :
    Option Item := do
  let budget_score ←
    if budget > 0 then (pyDiv item.price budget).map (fun q => 1 - q) else some 1
  let time_score ←
    if time > 0 then (pyDiv item.time_minutes time).map (fun q => 1 - q) else some 1
  let alignment_score :=
    (1 - slider) * item.comfort_score + slider * item.exploration_score
  let composite := round4 (w.budget_weight * budget_score
      + w.time_weight * time_score + w.alignment_weight * alignment_score)
  some { item with
      score := composite,
      score_breakdown := some
        ⟨round4 budget_score, round4 time_score, round4 alignment_score, w⟩ }

/-- Exception-aware variant of `compute_soft_scores` (sorting cannot fail). -/
def compute_soft_scores_checked (items : List Item) (budget time slider : ℚ)
    (preset : Option String) : Option (List Item) :=
  (items.mapM (scoreOneChecked budget time slider (weightsFor preset))).map
    (fun scored => scored.mergeSort (fun a b => decide (b.score ≤ a.score)))

/-- Exception-aware variant of `score_items` (the hard filter only compares,
so it cannot fail). -/
def score_items_checked (items : List Item) (budget time slider : ℚ)
    (preset : Option String) : Option ScoreResult :=
  (compute_soft_scores_checked (apply_hard_constraints items budget time)
      budget time slider preset).map
    (fun ranked =>
      ⟨ranked, items.length - (apply_hard_constraints items budget time).length,
        items.length⟩)

/-- The guarded score of one item never divides by zero. -/
theorem scoreOneChecked_eq_some (budget time slider : ℚ) (w : WeightProfile)
    (item : Item) :
    scoreOneChecked budget time slider w item = some (scoreOne budget time slider w item) := by
  unfold scoreOneChecked scoreOne pyDiv
  by_cases hb : budget > 0
  · have hb' : budget ≠ 0 := ne_of_gt hb
    by_cases ht : time > 0
    · have ht' : time ≠ 0 := ne_of_gt ht
      simp [hb, hb', ht, ht']
    · simp [hb, hb', ht]
  · by_cases ht : time > 0
    · have ht' : time ≠ 0 := ne_of_gt ht
      simp [hb, ht, ht']
    · simp [hb, ht]

/-- Mapping `mapM` of a function that never fails never fails. -/
theorem mapM_eq_some_map (f : Item → Option Item) (g : Item → Item)
    (h : ∀ a, f a = some (g a)) :
    ∀ l : List Item, l.mapM f = some (l.map g) := by
  intro l
  induction l with
  | nil => rfl
  | cons a rest ih =>
    rw [List.mapM_cons, h a, ih]
    rfl

/-- Claim C8: no documented input makes the core raise.  The hard filter and
the scorer are total functions; the exception-aware embeddings of the scorer,
of the pipeline entry point `score_items`, and of the injector — in which
every Python `/` is `pyDiv` and `random.sample` is guarded by its
`ValueError` condition — return `some` on every input: the divisions are
guarded by the `> 0` checks and the sample size is clamped to the pool
size. -/
theorem C8_no_exceptions (sample : List Item → ℕ → List Item)
    (items ranked all_passed : List Item) (budget time slider : ℚ)
    (preset : Option String) (top_n : ℕ) (rate : ℚ) :
    compute_soft_scores_checked items budget time slider preset
        = some (compute_soft_scores items budget time slider preset)
    ∧ score_items_checked items budget time slider preset
        = some (score_items items budget time slider preset)
    ∧ inject_discovery_checked sample ranked all_passed top_n rate
        = some (inject_discovery sample ranked all_passed top_n rate) := by
  have hscore : ∀ (l : List Item),
      compute_soft_scores_checked l budget time slider preset
        = some (compute_soft_scores l budget time slider preset) := by
    intro l
    unfold compute_soft_scores_checked compute_soft_scores
    rw [mapM_eq_some_map _ _ (scoreOneChecked_eq_some budget time slider (weightsFor preset)) l]
    rfl
  refine ⟨hscore items, ?_, ?_⟩
  · unfold score_items_checked score_items
    rw [hscore (apply_hard_constraints items budget time)]
    rfl
  · simp only [inject_discovery_checked, inject_discovery]
    by_cases hc : (ranked.filter (fun i =>
        !(decide (i.id ∈ (ranked.take top_n).map (fun i => i.id))))).isEmpty
    · rw [if_pos hc, if_pos hc]
    · rw [if_neg hc, if_neg hc, if_pos]
      exact Int.toNat_le.mpr (min_le_right _ _)

/-- One explanation record (`id`, `why_recommended`, `tradeoffs`,
`why_others_lower`), as produced by the template or the LLM. -/
structure Expl where
  id : String
  why_recommended : String
  tradeoffs : String
  why_others_lower : String
deriving DecidableEq, Repr

/-- Loop body of `generate_explanations_template` for the item at (0-based)
position `idx`.  Numeric rendering (`:.2f`, percentages, the rupee amounts)
is abstracted by `toString`; the quotation marks Python puts around the item
name are omitted.  Matches the source otherwise: the two percentage values
fall back to 0 when the corresponding limit is not positive, and the
discovery branch is taken iff the `is_discovery` key is present and true. -/
def templateOne (budget time_limit : ℚ) (idx : ℕ) (item : Item) : Expl :=
  let budget_pct : ℤ :=
    if budget > 0 then pyRound ((1 - item.price / budget) * 100) else 0
  let time_pct : ℤ :=
    if time_limit > 0 then pyRound ((1 - item.time_minutes / time_limit) * 100) else 0
  let why :=
    if item.is_discovery = some true then
      "🔍 Discovery pick! " ++ item.name
        ++ " meets your constraints but offers something different — it scores high on exploration ("
        ++ toString item.exploration_score ++ ")."
    else
      "Scored " ++ toString item.score ++ " — saves " ++ toString budget_pct
        ++ "% of your budget and uses only " ++ toString item.time_minutes ++ "/"
        ++ toString time_limit ++ " min."
  let tradeoffs_txt :=
    if item.is_discovery = some true then
      "Exploration-focused pick: may not be your usual preference, but it stays within ₹"
        ++ toString budget ++ " and " ++ toString time_limit ++ " min."
    else
      "Costs ₹" ++ toString item.price ++ " (" ++ toString budget_pct
        ++ "% saved) and takes " ++ toString item.time_minutes ++ " min ("
        ++ toString time_pct ++ "% time saved)."
  let why_others :=
    if idx = 0 then "Top pick — best balance of your constraints."
    else if idx < 3 then "Strong option, slightly less optimal on one dimension."
    else "Still meets your constraints but scored lower on weighted combination."
  ⟨item.id, why, tradeoffs_txt, why_others⟩

/-- Function `generate_explanations_template` from `explainer.py` (its `constraints`
dict is passed as the two numbers it reads from it). -/
def generate_explanations_template (budget time_limit : ℚ) (items : List Item) :
    List Expl :=
  (items.enum).map (fun p => templateOne budget time_limit p.1 p.2)

/-- The dict comprehension `expl_map = {e["id"]: e for e in explanations}`
followed by `expl_map.get(id)`: on duplicate ids the later entry wins, so the
lookup finds the last matching entry. -/
def explMapLookup (expls : List Expl) (idv : String) : Option Expl :=
  expls.reverse.find? (fun e => e.id = idv)

/-- Function `generate_explanations` from `explainer.py`.  Here `llm_result` stands for the
return value of `generate_explanations_llm`, which is `[]` whenever the API
key is missing, the client is unavailable, or the call fails; in that case
the template explanations are used.  Each item then receives the three text
fields from the lookup by its id, with the per-field defaults of the source when
its id is absent from the map. -/
def generate_explanations (llm_result : List Expl) (budget time_limit : ℚ)
    (items : List Item) : List Item :=
  let explanations :=
    if llm_result.isEmpty then generate_explanations_template budget time_limit items
    else llm_result
  items.map (fun item =>
    match explMapLookup explanations item.id with
    | some e =>
      { item with
          why_recommended := some e.why_recommended,
          tradeoffs := some e.tradeoffs,
          why_others_lower := some e.why_others_lower }
    | none =>
      { item with
          why_recommended := some "Meets your constraints.",
          tradeoffs := some "No significant tradeoffs identified.",
          why_others_lower := some "" })

/-- Erase the three explanation text fields; two items agree on every other
field iff their images under `exceptExplTexts` are equal. -/
def exceptExplTexts (i : Item) : Item :=
  { i with why_recommended := none, tradeoffs := none, why_others_lower := none }

/-- A string starting with a non-empty string is non-empty. -/
theorem append_ne_empty_left (s t : String) (h : s ≠ "") : s ++ t ≠ "" := by
  intro he
  apply h
  have hd := congrArg String.data he
  rw [String.data_append] at hd
  exact String.ext (List.append_eq_nil.mp hd).1

/-- Every template explanation has three non-empty text fields. -/
theorem templateOne_fields_ne (budget time_limit : ℚ) (idx : ℕ) (item : Item) :
    (templateOne budget time_limit idx item).why_recommended ≠ ""
    ∧ (templateOne budget time_limit idx item).tradeoffs ≠ ""
    ∧ (templateOne budget time_limit idx item).why_others_lower ≠ "" := by
  unfold templateOne
  refine ⟨?_, ?_, ?_⟩
  · by_cases hd : item.is_discovery = some true
    · simp only [hd, if_pos]
      repeat (apply append_ne_empty_left)
      decide
    · simp only [hd, if_neg, ite_false]
      repeat (apply append_ne_empty_left)
      decide
  · by_cases hd : item.is_discovery = some true
    · simp only [hd, if_pos]
      repeat (apply append_ne_empty_left)
      decide
    · simp only [hd, if_neg, ite_false]
      repeat (apply append_ne_empty_left)
      decide
  · by_cases h0 : idx = 0
    · simp only [h0, if_pos]
      decide
    · by_cases h3 : idx < 3
      · simp only [h0, h3, ite_false, ite_true]
        decide
      · simp only [h0, h3, ite_false]
        decide

/-- Every input item id is found by the template-explanation lookup, and
the found entry is a template entry. -/
theorem template_covers (budget time_limit : ℚ) (items : List Item) (item : Item)
    (h : item ∈ items) :
    ∃ e, explMapLookup (generate_explanations_template budget time_limit items) item.id
          = some e
      ∧ e ∈ generate_explanations_template budget time_limit items := by
  have h2 : item ∈ (items.enum).map Prod.snd := by
    rw [List.enum_map_snd]
    exact h
  obtain ⟨p, hp, hps⟩ := List.mem_map.mp h2
  have he : templateOne budget time_limit p.1 p.2
      ∈ generate_explanations_template budget time_limit items :=
    List.mem_map_of_mem _ hp
  have heid : (templateOne budget time_limit p.1 p.2).id = item.id := by
    show p.2.id = item.id
    rw [hps]
  cases hfind : explMapLookup (generate_explanations_template budget time_limit items)
      item.id with
  | none =>
    unfold explMapLookup at hfind
    rw [List.find?_eq_none] at hfind
    have hcontra := hfind (templateOne budget time_limit p.1 p.2)
      (List.mem_reverse.mpr he)
    simp [heid] at hcontra
  | some found =>
    refine ⟨found, rfl, ?_⟩
    unfold explMapLookup at hfind
    exact List.mem_reverse.mp (List.mem_of_find?_eq_some hfind)

/-- Claim C9: when the LLM explainer fails or is unavailable (its result is
the empty list, so the template fallback is used), the explanation stage
returns the same items in the same order — unchanged in everything except the
three explanation text fields — and every item carries non-empty text for
`why_recommended`, `tradeoffs` and `why_others_lower`. -/
theorem C9_explainer_preserves_and_fills (budget time_limit : ℚ) (items : List Item) :
    (generate_explanations [] budget time_limit items).map exceptExplTexts
      = items.map exceptExplTexts
    ∧ (generate_explanations [] budget time_limit items).length = items.length
    ∧ ∀ x ∈ generate_explanations [] budget time_limit items,
        (∃ s, x.why_recommended = some s ∧ s ≠ "")
        ∧ (∃ s, x.tradeoffs = some s ∧ s ≠ "")
        ∧ (∃ s, x.why_others_lower = some s ∧ s ≠ "") := by
  refine ⟨?_, ?_, ?_⟩
  · simp only [generate_explanations, List.isEmpty_nil, if_true]
    rw [List.map_map]
    apply List.map_congr_left
    intro item _
    simp only [Function.comp]
    cases hlook : explMapLookup (generate_explanations_template budget time_limit items)
        item.id with
    | none => rfl
    | some e => rfl
  · simp only [generate_explanations, List.isEmpty_nil, if_true, List.length_map]
  · intro x hx
    simp only [generate_explanations, List.isEmpty_nil, if_true] at hx
    obtain ⟨item, hitem, rfl⟩ := List.mem_map.mp hx
    obtain ⟨e, hlook, hein⟩ := template_covers budget time_limit items item hitem
    obtain ⟨p, -, rfl⟩ := List.mem_map.mp hein
    obtain ⟨hw, ht, ho⟩ := templateOne_fields_ne budget time_limit p.1 p.2
    rw [hlook]
    exact ⟨⟨_, rfl, hw⟩, ⟨_, rfl, ht⟩, ⟨_, rfl, ho⟩⟩
